import Mathlib

/-!
Verification development for the MONAI crop/pad dictionary transforms
(monai/transforms/croppad/dictionary.py) and the underlying crop/pad engine
they delegate to.  The dictionary wrappers are embedded from the source file;
the underlying array engine (monai/transforms/croppad/array.py, not part of
this excerpt) is modelled from the specification's description of the
Geometry Resolver, Random Sampler, Cropper/Padder primitive, Inverse Engine
and Multi-sample Patch Engine.
-/

namespace MonaiCropPad

/-- A spatial coordinate (or per-axis vector) for a rank-`r` array:
one natural number per spatial axis. -/
def Coord (r : Nat) : Type := Fin r → Nat

/-- Modelled from the spec: a forward crop/pad operation of the
Cropper/Padder primitive.  A crop is given by a canonical in-bounds
bounding box (per-axis start and size); a pad by per-axis (before, after)
amounts and a constant fill value. -/
inductive CropPadOp (r : Nat) where
  | crop (start size : Coord r)
  | pad (before after : Coord r) (fill : Int)

/-- Modelled from the spec: one AppliedOperation log entry, recording the
operation kind, the exact box or pad amounts used, and the original
spatial shape, sufficient to invert without re-deriving parameters. -/
inductive OpRecord (r : Nat) where
  | cropRec (start size origShape : Coord r)
  | padRec (before after origShape : Coord r)

/-- Modelled from the spec: an N-dimensional array (spatial part only; the
channel axis is untouched by every operation here) carrying its spatial
shape, its contents as a function of coordinates, the ordered
applied-operations log (most recent last), and the optional per-sample
patch index attached by the multi-sample engine. -/
structure MArr (r : Nat) where
  shape : Coord r
  data : Coord r → Int
  appliedOperations : List (OpRecord r)
  patchIndex : Option Nat

/-- Pointwise sum of two per-axis vectors. -/
def coordAdd {r : Nat} (c s : Coord r) : Coord r := fun i => c i + s i

/-- Pointwise (truncated) difference of two per-axis vectors. -/
def coordSub {r : Nat} (c s : Coord r) : Coord r := fun i => c i - s i

/-- `c` lies in the box of per-axis start `start` and size `size`. -/
def inBox {r : Nat} (start size c : Coord r) : Prop :=
  ∀ i, start i ≤ c i ∧ c i < start i + size i

instance {r : Nat} (start size c : Coord r) : Decidable (inBox start size c) := by
  unfold inBox; infer_instance

/-- Shape of a padded array: before + shape + after on every axis. -/
def padShape {r : Nat} (before shape after : Coord r) : Coord r :=
  fun i => before i + shape i + after i

/-- Modelled from the spec: the Cropper/Padder primitive.  A crop slices
exactly the box region per spatial axis; a pad extends per spatial axis
filling new positions with the constant fill value.  Either appends
exactly one AppliedOperation entry to the result's log. -/
def applyOp {r : Nat} (a : MArr r) : CropPadOp r → MArr r
  | CropPadOp.crop start size =>
      { shape := size
        data := fun c => a.data (coordAdd c start)
        appliedOperations :=
          a.appliedOperations ++ [OpRecord.cropRec start size a.shape]
        patchIndex := a.patchIndex }
  | CropPadOp.pad before after fill =>
      { shape := padShape before a.shape after
        data := fun c =>
          if inBox before a.shape c then a.data (coordSub c before) else fill
        appliedOperations :=
          a.appliedOperations ++ [OpRecord.padRec before after a.shape]
        patchIndex := a.patchIndex }

/-- Modelled from the spec: the Inverse Engine.  Pops the most recent
AppliedOperation entry; a crop record produces an array of the recorded
original shape with the cropped region placed back at its recorded box
position and all other positions filled with zero; a pad record re-crops
out exactly the padded region.  Inverting an array with an empty log is a
no-op. -/
def invert {r : Nat} (a : MArr r) : MArr r :=
  match a.appliedOperations.getLast? with
  | none => a
  | some (OpRecord.cropRec start size origShape) =>
      { shape := origShape
        data := fun c =>
          if inBox start size c then a.data (coordSub c start) else 0
        appliedOperations := a.appliedOperations.dropLast
        patchIndex := a.patchIndex }
  | some (OpRecord.padRec before _ origShape) =>
      { shape := origShape
        data := fun c => a.data (coordAdd c before)
        appliedOperations := a.appliedOperations.dropLast
        patchIndex := a.patchIndex }

/-- Apply a sequence of forward crop/pad operations in order. -/
def applyOps {r : Nat} (a : MArr r) (ops : List (CropPadOp r)) : MArr r :=
  ops.foldl applyOp a

/-- Apply `invert` `n` times. -/
def invertN {r : Nat} (a : MArr r) : Nat → MArr r
  | 0 => a
  | n + 1 => invert (invertN a n)

/-- Well-formedness of one operation against the current spatial shape:
a crop box must lie fully inside the array. -/
def wfOp {r : Nat} (shape : Coord r) : CropPadOp r → Prop
  | CropPadOp.crop start size => ∀ i, start i + size i ≤ shape i
  | CropPadOp.pad _ _ _ => True

instance {r : Nat} (shape : Coord r) (op : CropPadOp r) : Decidable (wfOp shape op) := by
  cases op <;> unfold wfOp <;> infer_instance

/-- The spatial shape after one operation. -/
def opShape {r : Nat} (shape : Coord r) : CropPadOp r → Coord r
  | CropPadOp.crop _ size => size
  | CropPadOp.pad before after _ => padShape before shape after

/-- Well-formedness of a sequence of operations, threading the shape. -/
def wfOps {r : Nat} (shape : Coord r) : List (CropPadOp r) → Prop
  | [] => True
  | op :: rest => wfOp shape op ∧ wfOps (opShape shape op) rest

instance {r : Nat} (shape : Coord r) (ops : List (CropPadOp r)) :
    Decidable (wfOps shape ops) := by
  induction ops generalizing shape with
  | nil => exact isTrue trivial
  | cons op rest ih => exact @instDecidableAnd _ _ _ (ih (opShape shape op))

/-- `c` is a valid coordinate of an array of spatial shape `shape`. -/
def validCoord {r : Nat} (shape c : Coord r) : Prop := ∀ i, c i < shape i

instance {r : Nat} (shape c : Coord r) : Decidable (validCoord shape c) := by
  unfold validCoord; infer_instance

/-- Trace a coordinate of the original array through a sequence of forward
operations: `some` of its coordinate in the final array when it survives
every crop, `none` when some crop removes it. -/
def track {r : Nat} (c : Coord r) : List (CropPadOp r) → Option (Coord r)
  | [] => some c
  | CropPadOp.crop start size :: rest =>
      if inBox start size c then track (coordSub c start) rest else none
  | CropPadOp.pad before _ _ :: rest => track (coordAdd c before) rest

/-- A concrete one-axis array for exercising the round-trip theorem. -/
def c1WitnessArr : MArr 1 :=
  { shape := fun _ => 4
    data := fun c => Int.ofNat (c 0) + 1
    appliedOperations := []
    patchIndex := none }

/-- A concrete operation sequence: crop [1,3) then pad by 1 on each side. -/
def c1WitnessOps : List (CropPadOp 1) :=
  [CropPadOp.crop (fun _ => 1) (fun _ => 2),
   CropPadOp.pad (fun _ => 1) (fun _ => 1) 7]

/-- A data dictionary: an association list from string keys to values,
in insertion order, as a Python dict presents itself to this code. -/
abbrev Dict (V : Type) : Type := List (String × V)

/-- Python d[k] read: the value bound to `k`, when present. -/
def dictLookup {V : Type} : Dict V → String → Option V
  | [], _ => none
  | kv :: rest, k => if kv.1 = k then some kv.2 else dictLookup rest k

/-- Python d.pop(k, None): remove the binding of `k`. -/
def dictPop {V : Type} : Dict V → String → Dict V
  | [], _ => []
  | kv :: rest, k => if kv.1 = k then dictPop rest k else kv :: dictPop rest k

/-- Python d[k] = v: rebind an existing key in place, or append a new
binding at the end (insertion order preserved). -/
def dictSet {V : Type} : Dict V → String → V → Dict V
  | [], k, v => [(k, v)]
  | kv :: rest, k, v =>
      if kv.1 = k then (k, v) :: rest else kv :: dictSet rest k v

/-- Transform every value of a dictionary, key-dependently, keeping keys
and order.  The per-sample body of the multi-sample wrapper calls has this
shape: entries under configured keys are replaced by their crop, all other
entries are (deep-)copied unchanged. -/
def mapValuesWithKey {V W : Type} (h : String → V → W) (d : Dict V) : Dict W :=
  d.map fun kv => (kv.1, h kv.1 kv.2)

/-- Modelled from the spec: the seedable deterministic RandomState owned by
a sampler instance (numpy RandomState in the source, whose module is not
part of this excerpt).  A linear congruential step stands in for the
concrete generator; the properties proved below depend only on it being a
pure function of the state. -/
def rngNext (s : Nat) : Nat := (s * 1103515245 + 12345) % 2147483648

/-- The generator state after `n` draws from state `s`. -/
def rngIter (s : Nat) : Nat → Nat
  | 0 => s
  | n + 1 => rngNext (rngIter s n)

/-- An axis-aligned crop box: per-axis start and size. -/
structure CropBox (r : Nat) where
  start : Coord r
  size : Coord r

/-- Clip an integer coordinate to the interval from 0 to `dim`. -/
def clipAxis (x : Int) (dim : Nat) : Nat := Int.toNat (min (max 0 x) (dim : Int))

/-- Modelled from the spec: non-positive requested-size components of the
Geometry Resolver mean "use the corresponding input-array dimension". -/
def effSizeAxis (req : Int) (dim : Nat) : Nat :=
  if req ≤ 0 then dim else req.toNat

/-- Modelled from the spec: per-axis center+size resolution of the Geometry
Resolver: start = center - size / 2, clipped to the interval from 0 to the
image dimension. -/
def resolveStartAxis (center : Nat) (req : Int) (dim : Nat) : Nat :=
  clipAxis ((center : Int) - ((effSizeAxis req dim : Nat) : Int) / 2) dim

/-- Modelled from the spec: per-axis center+size resolution of the Geometry
Resolver: end = start + size, clipped to the interval from 0 to the image
dimension. -/
def resolveEndAxis (center : Nat) (req : Int) (dim : Nat) : Nat :=
  clipAxis (((center : Int) - ((effSizeAxis req dim : Nat) : Int) / 2) +
    (effSizeAxis req dim : Int)) dim

/-- Output size per axis of a center+size crop. -/
def resolveSizeAxis (center : Nat) (req : Int) (dim : Nat) : Nat :=
  resolveEndAxis center req dim - resolveStartAxis center req dim

/-- CenterSpatialCrop per-axis output size: the center is the image
center. -/
def centerCropSizeAxis (req : Int) (dim : Nat) : Nat :=
  resolveSizeAxis (dim / 2) req dim

/-- Modelled from the spec: per-axis start+end ROI resolution of
SpatialCrop: the start and end coordinates are clipped to the interval
from 0 to the image dimension (an out-of-image end coordinate becomes the
end coordinate of the image). -/
def startEndSizeAxis (roiStart roiEnd : Int) (dim : Nat) : Nat :=
  clipAxis roiEnd dim - clipAxis roiStart dim

/-- The crop box a center+size specification resolves to, per axis. -/
def centerBox {r : Nat} (center : Coord r) (reqSize : Fin r → Int)
    (shape : Coord r) : CropBox r :=
  { start := fun i => resolveStartAxis (center i) (reqSize i) (shape i)
    size := fun i => resolveSizeAxis (center i) (reqSize i) (shape i) }

/-- Modelled from the spec: one uniform random ROI draw of the Random
Sampler: from the current generator state it derives, per axis, a crop
start within the valid range for the effective ROI size (clipped to the
image).  The concrete per-axis derivation stands in for numpy's uniform
draws; the properties proved below depend only on the draw being a pure
function of state and spatial shape. -/
def sampleBox {r : Nat} (state : Nat) (reqSize : Fin r → Int)
    (shape : Coord r) : CropBox r :=
  { start := fun i =>
      rngNext (state + i.val) % (shape i - min (effSizeAxis (reqSize i) (shape i)) (shape i) + 1)
    size := fun i => min (effSizeAxis (reqSize i) (shape i)) (shape i) }

/-- The `i`-th of the sequential box draws a cropper seeded with `seed`
produces (RandSpatialCropSamples: one randomize call per sample). -/
def sampleBoxAt {r : Nat} (seed i : Nat) (reqSize : Fin r → Int)
    (shape : Coord r) : CropBox r :=
  sampleBox (rngIter seed i) reqSize shape

/-- Crop an array by a box and attach the per-sample patch index, as the
multi-sample engine does for sample `i` (patch index attachment modelled
from the spec; the crop itself is the Cropper primitive). -/
def cropWithIndex {r : Nat} (b : CropBox r) (i : Nat) (a : MArr r) : MArr r :=
  { applyOp a (CropPadOp.crop b.start b.size) with patchIndex := some i }

/-- RandSpatialCropSamplesd.__call__, output sample `i` (dictionary.py
lines 588-601): entries outside the configured keys are deep-copied
unchanged; for each configured key the cropper is re-seeded with the one
drawn sub-seed, so sample `i` of every key uses the `i`-th box drawn from
that sub-seed and that key's own spatial shape, and carries patch
index `i`. -/
def randSpatialCropSamplesdSampleAt {r : Nat} (keys : List String)
    (reqSize : Fin r → Int) (subSeed : Nat) (data : Dict (MArr r)) (i : Nat) :
    Dict (MArr r) :=
  mapValuesWithKey
    (fun k a =>
      if keys.contains k then cropWithIndex (sampleBoxAt subSeed i reqSize a.shape) i a
      else a)
    data

/-- RandSpatialCropSamplesd.__call__: the list of `num_samples` output
dictionaries. -/
def randSpatialCropSamplesdCall {r : Nat} (keys : List String)
    (reqSize : Fin r → Int) (numSamples subSeed : Nat) (data : Dict (MArr r)) :
    List (Dict (MArr r)) :=
  (List.range numSamples).map
    (randSpatialCropSamplesdSampleAt keys reqSize subSeed data)

/-- The randomize-once multi-sample pattern shared by RandWeightedCropd,
RandCropByPosNegLabeld and RandCropByLabelClassesd: one randomize call
draws the crop centers for all samples (`centers`), then every configured
key of sample `i` is cropped at center `i` with randomize=False, so all
keys of a sample share one draw. -/
def randomizeOnceSampleAt {r : Nat} (keys : List String) (reqSize : Fin r → Int)
    (centers : Nat → Coord r) (data : Dict (MArr r)) (i : Nat) : Dict (MArr r) :=
  mapValuesWithKey
    (fun k a =>
      if keys.contains k then cropWithIndex (centerBox (centers i) reqSize a.shape) i a
      else a)
    data

/-- RandCropByLabelClassesd.__call__ (dictionary.py lines 992-1010): copies
the data, pops the precomputed class-indices entry when `indices_key` is
configured, randomizes once, then builds `num_samples` outputs in which
entries outside the configured keys are deep-copied unchanged and each
configured key is cropped at that sample's drawn center. -/
def randCropByLabelClassesdCall {r : Nat} (keys : List String)
    (indicesKey : Option String) (reqSize : Fin r → Int) (centers : Nat → Coord r)
    (numSamples : Nat) (data : Dict (MArr r)) : List (Dict (MArr r)) :=
  let d := match indicesKey with
    | none => data
    | some k => dictPop data k
  (List.range numSamples).map (randomizeOnceSampleAt keys reqSize centers d)

/-- RandCropByPosNegLabeld.__call__ (dictionary.py lines 853-872): copies
the data, pops the precomputed foreground and background indices entries
when their keys are configured, randomizes once, then builds `num_samples`
outputs as above. -/
def randCropByPosNegLabeldCall {r : Nat} (keys : List String)
    (fgKey bgKey : Option String) (reqSize : Fin r → Int) (centers : Nat → Coord r)
    (numSamples : Nat) (data : Dict (MArr r)) : List (Dict (MArr r)) :=
  let d1 := match fgKey with
    | none => data
    | some k => dictPop data k
  let d2 := match bgKey with
    | none => d1
    | some k => dictPop d1 k
  (List.range numSamples).map (randomizeOnceSampleAt keys reqSize centers d2)

/-- RandWeightedCropd.__call__ (dictionary.py lines 735-747): randomizes
once from the weight map, then crops every configured key at the shared
drawn centers with randomize=False. -/
def randWeightedCropdCall {r : Nat} (keys : List String) (reqSize : Fin r → Int)
    (centers : Nat → Coord r) (numSamples : Nat) (data : Dict (MArr r)) :
    List (Dict (MArr r)) :=
  (List.range numSamples).map (randomizeOnceSampleAt keys reqSize centers data)

/-- The random state held by a dictionary-level random crop transform: the
wrapper's own generator plus the wrapped cropper's generator (the
Randomizable mixin, modelled from the spec). -/
structure RandCropdState where
  rState : Nat
  cropperState : Nat

/-- RandCropd.set_random_state (dictionary.py lines 342-346): seeds the
wrapper generator and propagates the same seed to the wrapped cropper.
The previously held state is discarded entirely. -/
def setRandomState (seed : Nat) (_ : RandCropdState) : RandCropdState :=
  { rState := seed, cropperState := seed }

/-- One RandCropd.__call__ randomize step: the cropper draws a box for the
given image spatial size and advances its generator once. -/
def randCropdStep {r : Nat} (reqSize : Fin r → Int) (shape : Coord r)
    (s : RandCropdState) : CropBox r × RandCropdState :=
  (sampleBox s.cropperState reqSize shape,
   { s with cropperState := rngNext s.cropperState })

/-- Replay a sequence of randomize calls (one image spatial size per call)
on a RandCropd-style transform, collecting the drawn boxes. -/
def randCropdReplay {r : Nat} (reqSize : Fin r → Int) :
    RandCropdState → List (Coord r) → List (CropBox r)
  | _, [] => []
  | s, sh :: rest =>
      (randCropdStep reqSize sh s).1 ::
        randCropdReplay reqSize (randCropdStep reqSize sh s).2 rest

/-- Replay a sequence of RandSpatialCropSamplesd calls: each call draws a
fresh sub-seed from the wrapper generator (randomize, dictionary.py lines
585-586) and produces that call's per-sample box sequence from it. -/
def rscsReplay {r : Nat} (reqSize : Fin r → Int) (numSamples : Nat) :
    Nat → List (Coord r) → List (List (CropBox r))
  | _, [] => []
  | st, sh :: rest =>
      ((List.range numSamples).map fun i => sampleBoxAt (rngNext st) i reqSize sh) ::
        rscsReplay reqSize numSamples (rngNext st) rest

/-- A concrete array for exercising the group-consistency theorem. -/
def c2ArrA : MArr 1 :=
  { shape := fun _ => 6
    data := fun c => Int.ofNat (c 0)
    appliedOperations := []
    patchIndex := none }

/-- A second concrete array of the same spatial shape, different data. -/
def c2ArrB : MArr 1 :=
  { shape := fun _ => 6
    data := fun c => 2 * Int.ofNat (c 0)
    appliedOperations := []
    patchIndex := none }

/-- A concrete two-key data dictionary of co-registered arrays. -/
def c2Data : Dict (MArr 1) := [("img", c2ArrA), ("seg", c2ArrB)]

/-- A concrete requested ROI size. -/
def c2Req : Fin 1 → Int := fun _ => 2

/-- A concrete per-sample center draw. -/
def c2Centers : Nat → Coord 1 := fun _ _ => 3

/-- Modelled from the spec: RandCropByPosNegLabel constructor validation
(monai/transforms/croppad/array.py, not part of this excerpt): raises
ValueError when pos < 0 or neg < 0, and raises ValueError when
pos + neg = 0; otherwise the cropper holds the foreground probability
pos / (pos + neg).  RandCropByPosNegLabeld builds this cropper inside its
own constructor (dictionary.py lines 828-835), so constructing the
dictionary transform raises the same errors.  Python floats are modelled
as rationals. -/
def randCropByPosNegLabelInit (pos neg : Rat) : Except String Rat :=
  if pos < 0 ∨ neg < 0 then
    Except.error "ValueError: pos and neg must be nonnegative"
  else if pos + neg = 0 then
    Except.error "ValueError: Incompatible values: pos=0 and neg=0"
  else
    Except.ok (pos / (pos + neg))

/-- True exactly when an Except carries an error. -/
def isError {E A : Type} : Except E A → Bool
  | Except.error _ => true
  | Except.ok _ => false

/-- A concrete precomputed-indices value stored under an indices key. -/
def c5ArrIdx : MArr 1 :=
  { shape := fun _ => 3
    data := fun _ => 0
    appliedOperations := []
    patchIndex := none }

/-- A concrete data dictionary holding an image and a precomputed-indices
entry under key "idx". -/
def c5Data : Dict (MArr 1) := [("img", c2ArrA), ("idx", c5ArrIdx)]

/-- A concrete data dictionary with an unrelated entry under "extra". -/
def c5DataW : Dict (MArr 1) :=
  [("img", c2ArrA), ("extra", c2ArrB), ("idx", c5ArrIdx)]

/-- A heap of dictionary objects; a Python dict variable is a reference
(an index) into it.  Models dict object identity and in-place mutation,
which value-level association lists cannot express. -/
structure Store (V : Type) where
  refs : List (Dict V)

/-- Read the dictionary object a reference points to. -/
def storeGet {V : Type} (s : Store V) (ref : Nat) : Dict V := s.refs.getD ref []

/-- Python dict(data): allocate a new dictionary object holding the given
entries and return its reference. -/
def storeAlloc {V : Type} (s : Store V) (d : Dict V) : Store V × Nat :=
  ({ refs := s.refs ++ [d] }, s.refs.length)

/-- Overwrite a dictionary object in place through its reference. -/
def storeSet {V : Type} (s : Store V) (ref : Nat) (d : Dict V) : Store V :=
  { refs := s.refs.set ref d }

/-- One step of the Padd/Cropd per-key loop: d[key] = f(d[key]) executed
on the dictionary object at `ref`; a missing key is skipped (the
key_iterator yields only present keys). -/
def updateKeyAt {V : Type} (f : V → V) (s : Store V) (ref : Nat) (k : String) :
    Store V :=
  match dictLookup (storeGet s ref) k with
  | none => s
  | some v => storeSet s ref (dictSet (storeGet s ref) k (f v))

/-- The whole per-key loop of Padd.__call__ / Cropd.__call__ and their
inverses, writing through the given reference. -/
def updateKeysAt {V : Type} (f : V → V) : List String → Store V → Nat → Store V
  | [], s, _ => s
  | k :: ks, s, ref => updateKeysAt f ks (updateKeyAt f s ref k) ref

/-- Padd.__call__, Padd.inverse, Cropd.__call__ and Cropd.inverse
(dictionary.py lines 147-157 and 312-322): d = dict(data) allocates a new
dictionary object copying the input's entries, the per-key loop then
mutates only that new object through its own reference, and the new
reference is returned.  `f` abstracts the wrapped padder/cropper forward
or inverse call on one value. -/
def dictTransformCall {V : Type} (keys : List String) (f : V → V)
    (s : Store V) (ref : Nat) : Store V × Nat :=
  (updateKeysAt f keys (storeAlloc s (storeGet s ref)).1
    (storeAlloc s (storeGet s ref)).2,
   (storeAlloc s (storeGet s ref)).2)

/-- Allocate one fresh dictionary object per output sample. -/
def allocSamples {V : Type} : List (Dict V) → Store V → Store V × List Nat
  | [], s => (s, [])
  | d :: rest, s =>
      ((allocSamples rest (storeAlloc s d).1).1,
        (storeAlloc s d).2 :: (allocSamples rest (storeAlloc s d).1).2)

/-- The multi-sample calls (RandSpatialCropSamplesd, RandWeightedCropd,
RandCropByPosNegLabeld, RandCropByLabelClassesd) at store level:
d = dict(data) copies the input's entries as a value, pops act on that
copy, and every output sample is a freshly allocated dictionary object;
the input dictionary object is never written.  `cropAt` abstracts the
per-sample per-key crop. -/
def multiSampleCallStore {V : Type} (keys popKeys : List String)
    (cropAt : Nat → String → V → V) (numSamples : Nat) (s : Store V)
    (ref : Nat) : Store V × List Nat :=
  allocSamples
    ((List.range numSamples).map fun i =>
      mapValuesWithKey (fun k v => if keys.contains k then cropAt i k v else v)
        (popKeys.foldl dictPop (storeGet s ref)))
    s

/-- A concrete one-object store for exercising the no-mutation theorem. -/
def c10Store : Store Nat := { refs := [[("img", 3), ("extra", 4)]] }

/-- The derived bounding-box key of BoundingRectd: the f-string
key underscore bbox_key_postfix. -/
def derivedKey (k sfx : String) : String := k ++ "_" ++ sfx

/-- BoundingRectd.__call__ (dictionary.py lines 1076-1087), iterating the
configured keys over the copied data: for each present key, compute the
bounding box of its value (self.bbox, an engine call from array.py,
abstracted as the function `bb`), raise KeyError when the derived key
already exists in the dictionary built so far, and otherwise append the
bounding-box entry at the end; a missing configured key is skipped. -/
def boundingRectdGo {V : Type} (sfx : String) (bb : V → V) :
    List String → Dict V → Except String (Dict V)
  | [], d => Except.ok d
  | k :: ks, d =>
      match dictLookup d k with
      | none => boundingRectdGo sfx bb ks d
      | some v =>
          if (dictLookup d (derivedKey k sfx)).isSome then
            Except.error "KeyError: bounding box data already exists"
          else boundingRectdGo sfx bb ks (d ++ [(derivedKey k sfx, bb v)])

/-- BoundingRectd.__call__ on the full configured key list. -/
def boundingRectdCall {V : Type} (keys : List String) (sfx : String)
    (bb : V → V) (data : Dict V) : Except String (Dict V) :=
  boundingRectdGo sfx bb keys data

/-- A concrete dictionary for exercising the BoundingRectd theorem. -/
def c8Data : Dict Nat := [("img", 3), ("seg", 5)]

theorem coordSub_coordAdd {r : Nat} (c b : Coord r) :
    coordSub (coordAdd c b) b = c := by
  funext i; simp [coordSub, coordAdd]

theorem coordAdd_coordSub {r : Nat} (c s : Coord r) (h : ∀ i, s i ≤ c i) :
    coordAdd (coordSub c s) s = c := by
  funext i; simp [coordSub, coordAdd, Nat.sub_add_cancel (h i)]

theorem applyOp_shape {r : Nat} (a : MArr r) (op : CropPadOp r) :
    (applyOp a op).shape = opShape a.shape op := by
  cases op <;> rfl

theorem invert_concat_crop {r : Nat} (b : MArr r) (l : List (OpRecord r))
    (s z os : Coord r) (hb : b.appliedOperations = l ++ [OpRecord.cropRec s z os]) :
    invert b =
      { shape := os
        data := fun c => if inBox s z c then b.data (coordSub c s) else 0
        appliedOperations := l
        patchIndex := b.patchIndex } := by
  unfold invert
  rw [hb, List.getLast?_concat, List.dropLast_concat]

theorem invert_concat_pad {r : Nat} (b : MArr r) (l : List (OpRecord r))
    (bf af os : Coord r) (hb : b.appliedOperations = l ++ [OpRecord.padRec bf af os]) :
    invert b =
      { shape := os
        data := fun c => b.data (coordAdd c bf)
        appliedOperations := l
        patchIndex := b.patchIndex } := by
  unfold invert
  rw [hb, List.getLast?_concat, List.dropLast_concat]

/-- Core round-trip lemma: inverting once per forward operation restores
the shape and the log, keeps every surviving element at its original
coordinate, and fills every cropped-away position with zero. -/
theorem invertN_applyOps {r : Nat} (ops : List (CropPadOp r)) :
    ∀ a : MArr r, wfOps a.shape ops →
      (invertN (applyOps a ops) ops.length).shape = a.shape ∧
      (invertN (applyOps a ops) ops.length).appliedOperations = a.appliedOperations ∧
      ∀ c, validCoord a.shape c →
        (invertN (applyOps a ops) ops.length).data c =
          if (track c ops).isSome then a.data c else 0 := by
  induction ops with
  | nil =>
      intro a _
      refine ⟨rfl, rfl, ?_⟩
      intro c _
      simp [invertN, applyOps, track]
  | cons op rest ih =>
      intro a hwf
      obtain ⟨hop, hrest⟩ := hwf
      have hshape : (applyOp a op).shape = opShape a.shape op := applyOp_shape a op
      have hrest2 : wfOps (applyOp a op).shape rest := by rw [hshape]; exact hrest
      obtain ⟨ihS, ihL, ihD⟩ := ih (applyOp a op) hrest2
      have happ : applyOps a (op :: rest) = applyOps (applyOp a op) rest := rfl
      have hlen : (op :: rest).length = rest.length + 1 := rfl
      rw [happ, hlen]
      have hstep :
          invertN (applyOps (applyOp a op) rest) (rest.length + 1) =
            invert (invertN (applyOps (applyOp a op) rest) rest.length) := rfl
      rw [hstep]
      set c1 := invertN (applyOps (applyOp a op) rest) rest.length with hc1
      cases op with
      | crop start size =>
          have hlog : c1.appliedOperations =
              a.appliedOperations ++ [OpRecord.cropRec start size a.shape] := by
            rw [ihL]; rfl
          rw [invert_concat_crop c1 a.appliedOperations start size a.shape hlog]
          refine ⟨rfl, rfl, ?_⟩
          intro c hc
          show (if inBox start size c then c1.data (coordSub c start) else 0) =
            if (track c (CropPadOp.crop start size :: rest)).isSome then a.data c else 0
          by_cases hin : inBox start size c
          · have hvalid : validCoord (applyOp a (CropPadOp.crop start size)).shape
                (coordSub c start) := by
              intro i
              have h1 := (hin i).1
              have h2 := (hin i).2
              show c i - start i < size i
              omega
            have haval : (applyOp a (CropPadOp.crop start size)).data (coordSub c start) =
                a.data c := by
              show a.data (coordAdd (coordSub c start) start) = a.data c
              rw [coordAdd_coordSub c start (fun i => (hin i).1)]
            have htr : track c (CropPadOp.crop start size :: rest) =
                track (coordSub c start) rest := by
              simp [track, hin]
            rw [if_pos hin, htr, ihD (coordSub c start) hvalid, haval]
          · have htr : track c (CropPadOp.crop start size :: rest) = none := by
              simp [track, hin]
            rw [if_neg hin, htr]
            simp
      | pad before after fill =>
          have hlog : c1.appliedOperations =
              a.appliedOperations ++ [OpRecord.padRec before after a.shape] := by
            rw [ihL]; rfl
          rw [invert_concat_pad c1 a.appliedOperations before after a.shape hlog]
          refine ⟨rfl, rfl, ?_⟩
          intro c hc
          have hvalid : validCoord (applyOp a (CropPadOp.pad before after fill)).shape
              (coordAdd c before) := by
            intro i
            have := hc i
            show c i + before i < before i + a.shape i + after i
            omega
          have hdata := ihD (coordAdd c before) hvalid
          show c1.data (coordAdd c before) =
            if (track c (CropPadOp.pad before after fill :: rest)).isSome
            then a.data c else 0
          rw [hdata]
          have hin : inBox before a.shape (coordAdd c before) := by
            intro i
            have := hc i
            constructor
            · show before i ≤ c i + before i
              omega
            · show c i + before i < before i + a.shape i
              omega
          have haval : (applyOp a (CropPadOp.pad before after fill)).data
              (coordAdd c before) = a.data c := by
            show (if inBox before a.shape (coordAdd c before)
              then a.data (coordSub (coordAdd c before) before) else fill) = a.data c
            rw [if_pos hin, coordSub_coordAdd]
          rw [haval]
          rfl

/-- C1: for every array A with an empty applied-operations log and every
well-formed sequence of forward crop/pad operations producing B, applying
`invert` once per forward operation returns an array whose shape equals
A's original shape, whose applied-operations log is empty, in which every
element of A that survived cropping sits at the same coordinate as in A,
and in which every position removed by cropping holds zero. -/
theorem crop_pad_invert_roundtrip {r : Nat} (a : MArr r) (ops : List (CropPadOp r))
    (hlog : a.appliedOperations = []) (hwf : wfOps a.shape ops) :
    (invertN (applyOps a ops) ops.length).shape = a.shape ∧
    (invertN (applyOps a ops) ops.length).appliedOperations = [] ∧
    ∀ c, validCoord a.shape c →
      (invertN (applyOps a ops) ops.length).data c =
        if (track c ops).isSome then a.data c else 0 := by
  obtain ⟨h1, h2, h3⟩ := invertN_applyOps ops a hwf
  exact ⟨h1, h2.trans hlog, h3⟩

/-- Witness for C1 at a concrete array and operation sequence. -/
theorem crop_pad_invert_roundtrip_witness :
    c1WitnessArr.appliedOperations = [] ∧ wfOps c1WitnessArr.shape c1WitnessOps ∧
    ((invertN (applyOps c1WitnessArr c1WitnessOps) c1WitnessOps.length).shape =
        c1WitnessArr.shape ∧
      (invertN (applyOps c1WitnessArr c1WitnessOps) c1WitnessOps.length).appliedOperations
        = [] ∧
      ∀ c, validCoord c1WitnessArr.shape c →
        (invertN (applyOps c1WitnessArr c1WitnessOps) c1WitnessOps.length).data c =
          if (track c c1WitnessOps).isSome then c1WitnessArr.data c else 0) :=
  ⟨rfl, by decide, crop_pad_invert_roundtrip c1WitnessArr c1WitnessOps rfl (by decide)⟩

theorem dictLookup_mapValuesWithKey {V W : Type} (h : String → V → W)
    (d : Dict V) (k : String) :
    dictLookup (mapValuesWithKey h d) k = (dictLookup d k).map (h k) := by
  induction d with
  | nil => rfl
  | cons kv rest ih =>
      show (if kv.1 = k then some (h kv.1 kv.2) else dictLookup (mapValuesWithKey h rest) k)
        = (if kv.1 = k then some kv.2 else dictLookup rest k).map (h k)
      by_cases hk : kv.1 = k
      · subst hk; simp
      · rw [if_neg hk, if_neg hk, ih]

theorem dictLookup_dictPop {V : Type} (d : Dict V) (k kp : String) :
    dictLookup (dictPop d kp) k = if k = kp then none else dictLookup d k := by
  induction d with
  | nil => simp [dictPop, dictLookup]
  | cons kv rest ih =>
      unfold dictPop
      by_cases hkv : kv.1 = kp
      · rw [if_pos hkv, ih]
        by_cases hk : k = kp
        · simp [hk]
        · rw [if_neg hk, if_neg hk]
          show dictLookup rest k = if kv.1 = k then some kv.2 else dictLookup rest k
          have hne : ¬ kv.1 = k := by
            intro he
            exact hk (by rw [← he]; exact hkv)
          rw [if_neg hne]
      · rw [if_neg hkv]
        show (if kv.1 = k then some kv.2 else dictLookup (dictPop rest kp) k) = _
        by_cases hk : kv.1 = k
        · rw [if_pos hk]
          have hne : ¬ k = kp := fun he => hkv (hk.trans he)
          rw [if_neg hne]
          show some kv.2 = if kv.1 = k then some kv.2 else dictLookup rest k
          rw [if_pos hk]
        · rw [if_neg hk, ih]
          by_cases h2 : k = kp
          · simp [h2]
          · rw [if_neg h2, if_neg h2]
            show dictLookup rest k = if kv.1 = k then some kv.2 else dictLookup rest k
            rw [if_neg hk]

theorem getD_range_map {α : Type} (f : Nat → α) (n i : Nat) (hi : i < n) (dflt : α) :
    ((List.range n).map f).getD i dflt = f i := by
  rw [List.getD_eq_getElem?_getD, List.getElem?_map, List.getElem?_range hi]
  rfl

/-- C7 counterexample: a plain spatial crop specified by start and end
coordinates with start 2 and end 10 on an axis of size 5 requests an ROI of
size 8, larger than the image, yet the clipped output size is 3, not the
input size 5. -/
theorem oversized_roi_counterexample :
    (5 : Int) < 10 - 2 ∧ startEndSizeAxis 2 10 5 = 3 ∧ startEndSizeAxis 2 10 5 ≠ 5 := by
  constructor
  · decide
  constructor
  · decide
  · decide

/-- C7 (amended): on an axis whose requested ROI size exceeds the input
spatial size, a crop centered at the image center (CenterSpatialCropd, and
the centered path of SpatialCropd) outputs exactly the input size; for an
arbitrary center or a start+end specification the box is clipped to the
image bounds, so the output never exceeds the input (a plain crop never
pads) but can be smaller than the input even on such an axis. -/
theorem oversized_roi_clips (req : Int) (dim : Nat) (h : (dim : Int) < req) :
    centerCropSizeAxis req dim = dim ∧
    (∀ (center : Nat) (q : Int), resolveSizeAxis center q dim ≤ dim) ∧
    (∀ s e : Int, startEndSizeAxis s e dim ≤ dim) := by
  refine ⟨?_, ?_, ?_⟩
  · have hpos : ¬ req ≤ 0 := by omega
    simp only [centerCropSizeAxis, resolveSizeAxis, resolveEndAxis, resolveStartAxis,
      effSizeAxis, clipAxis, hpos, if_false]
    omega
  · intro center q
    simp only [resolveSizeAxis, resolveEndAxis, resolveStartAxis, clipAxis]
    omega
  · intro s e
    simp only [startEndSizeAxis, clipAxis]
    omega

/-- Witness for C7 (amended) at a concrete axis: requested size 7 on an
axis of size 5. -/
theorem oversized_roi_clips_witness :
    (5 : Int) < 7 ∧ (centerCropSizeAxis 7 5 = 5 ∧
      (∀ (center : Nat) (q : Int), resolveSizeAxis center q 5 ≤ 5) ∧
      (∀ s e : Int, startEndSizeAxis s e 5 ≤ 5)) :=
  ⟨by decide, oversized_roi_clips 7 5 (by decide)⟩

/-- C2: for every multi-sample dictionary crop transform
(RandSpatialCropSamplesd; and the randomize-once transforms
RandWeightedCropd, RandCropByPosNegLabeld, RandCropByLabelClassesd) on a
data dictionary whose listed keys share one spatial shape, output sample
`i` crops every configured key with the geometrically identical box: the
same start and size on every spatial axis. -/
theorem multi_sample_group_consistency {r : Nat} (keys : List String)
    (reqSize : Fin r → Int) (numSamples subSeed : Nat) (centers : Nat → Coord r)
    (data : Dict (MArr r)) (k1 k2 : String)
    (hk1 : keys.contains k1 = true) (hk2 : keys.contains k2 = true)
    (a1 a2 : MArr r)
    (h1 : dictLookup data k1 = some a1) (h2 : dictLookup data k2 = some a2)
    (hsh : a1.shape = a2.shape) (i : Nat) (hi : i < numSamples) :
    sampleBoxAt subSeed i reqSize a1.shape = sampleBoxAt subSeed i reqSize a2.shape ∧
    dictLookup ((randSpatialCropSamplesdCall keys reqSize numSamples subSeed data).getD i []) k1
      = some (cropWithIndex (sampleBoxAt subSeed i reqSize a1.shape) i a1) ∧
    dictLookup ((randSpatialCropSamplesdCall keys reqSize numSamples subSeed data).getD i []) k2
      = some (cropWithIndex (sampleBoxAt subSeed i reqSize a1.shape) i a2) ∧
    centerBox (centers i) reqSize a1.shape = centerBox (centers i) reqSize a2.shape ∧
    dictLookup ((randWeightedCropdCall keys reqSize centers numSamples data).getD i []) k1
      = some (cropWithIndex (centerBox (centers i) reqSize a1.shape) i a1) ∧
    dictLookup ((randWeightedCropdCall keys reqSize centers numSamples data).getD i []) k2
      = some (cropWithIndex (centerBox (centers i) reqSize a1.shape) i a2) ∧
    dictLookup ((randCropByPosNegLabeldCall keys none none reqSize centers numSamples data).getD i []) k1
      = some (cropWithIndex (centerBox (centers i) reqSize a1.shape) i a1) ∧
    dictLookup ((randCropByPosNegLabeldCall keys none none reqSize centers numSamples data).getD i []) k2
      = some (cropWithIndex (centerBox (centers i) reqSize a1.shape) i a2) ∧
    dictLookup ((randCropByLabelClassesdCall keys none reqSize centers numSamples data).getD i []) k1
      = some (cropWithIndex (centerBox (centers i) reqSize a1.shape) i a1) ∧
    dictLookup ((randCropByLabelClassesdCall keys none reqSize centers numSamples data).getD i []) k2
      = some (cropWithIndex (centerBox (centers i) reqSize a1.shape) i a2) := by
  have hrscs : (randSpatialCropSamplesdCall keys reqSize numSamples subSeed data).getD i []
      = randSpatialCropSamplesdSampleAt keys reqSize subSeed data i :=
    getD_range_map _ numSamples i hi []
  have honce : ((List.range numSamples).map
        (randomizeOnceSampleAt keys reqSize centers data)).getD i []
      = randomizeOnceSampleAt keys reqSize centers data i :=
    getD_range_map _ numSamples i hi []
  have hwc : (randWeightedCropdCall keys reqSize centers numSamples data).getD i []
      = randomizeOnceSampleAt keys reqSize centers data i := honce
  have hpn : (randCropByPosNegLabeldCall keys none none reqSize centers numSamples data).getD i []
      = randomizeOnceSampleAt keys reqSize centers data i := honce
  have hlc : (randCropByLabelClassesdCall keys none reqSize centers numSamples data).getD i []
      = randomizeOnceSampleAt keys reqSize centers data i := honce
  have look1 : ∀ a : MArr r, dictLookup data k1 = some a →
      dictLookup (randSpatialCropSamplesdSampleAt keys reqSize subSeed data i) k1
        = some (cropWithIndex (sampleBoxAt subSeed i reqSize a.shape) i a) := by
    intro a ha
    unfold randSpatialCropSamplesdSampleAt
    rw [dictLookup_mapValuesWithKey, ha]
    show some (if keys.contains k1 = true
      then cropWithIndex (sampleBoxAt subSeed i reqSize a.shape) i a else a) = _
    rw [if_pos hk1]
  have look2 : ∀ a : MArr r, dictLookup data k2 = some a →
      dictLookup (randSpatialCropSamplesdSampleAt keys reqSize subSeed data i) k2
        = some (cropWithIndex (sampleBoxAt subSeed i reqSize a.shape) i a) := by
    intro a ha
    unfold randSpatialCropSamplesdSampleAt
    rw [dictLookup_mapValuesWithKey, ha]
    show some (if keys.contains k2 = true
      then cropWithIndex (sampleBoxAt subSeed i reqSize a.shape) i a else a) = _
    rw [if_pos hk2]
  have olook1 : ∀ a : MArr r, dictLookup data k1 = some a →
      dictLookup (randomizeOnceSampleAt keys reqSize centers data i) k1
        = some (cropWithIndex (centerBox (centers i) reqSize a.shape) i a) := by
    intro a ha
    unfold randomizeOnceSampleAt
    rw [dictLookup_mapValuesWithKey, ha]
    show some (if keys.contains k1 = true
      then cropWithIndex (centerBox (centers i) reqSize a.shape) i a else a) = _
    rw [if_pos hk1]
  have olook2 : ∀ a : MArr r, dictLookup data k2 = some a →
      dictLookup (randomizeOnceSampleAt keys reqSize centers data i) k2
        = some (cropWithIndex (centerBox (centers i) reqSize a.shape) i a) := by
    intro a ha
    unfold randomizeOnceSampleAt
    rw [dictLookup_mapValuesWithKey, ha]
    show some (if keys.contains k2 = true
      then cropWithIndex (centerBox (centers i) reqSize a.shape) i a else a) = _
    rw [if_pos hk2]
  refine ⟨by rw [hsh], ?_, ?_, by rw [hsh], ?_, ?_, ?_, ?_, ?_, ?_⟩
  · rw [hrscs]; exact look1 a1 h1
  · rw [hrscs, hsh]; exact look2 a2 h2
  · rw [hwc]; exact olook1 a1 h1
  · rw [hwc, hsh]; exact olook2 a2 h2
  · rw [hpn]; exact olook1 a1 h1
  · rw [hpn, hsh]; exact olook2 a2 h2
  · rw [hlc]; exact olook1 a1 h1
  · rw [hlc, hsh]; exact olook2 a2 h2

/-- Witness for C2 at a concrete two-key dictionary: both keys of sample 0
are cropped with the same drawn box. -/
theorem multi_sample_group_consistency_witness :
    (["img", "seg"].contains "img" = true) ∧
    (["img", "seg"].contains "seg" = true) ∧
    dictLookup c2Data "img" = some c2ArrA ∧
    dictLookup c2Data "seg" = some c2ArrB ∧
    c2ArrA.shape = c2ArrB.shape ∧ 0 < 2 ∧
    (sampleBoxAt 5 0 c2Req c2ArrA.shape = sampleBoxAt 5 0 c2Req c2ArrB.shape ∧
      dictLookup ((randSpatialCropSamplesdCall ["img", "seg"] c2Req 2 5 c2Data).getD 0 []) "img"
        = some (cropWithIndex (sampleBoxAt 5 0 c2Req c2ArrA.shape) 0 c2ArrA) ∧
      dictLookup ((randSpatialCropSamplesdCall ["img", "seg"] c2Req 2 5 c2Data).getD 0 []) "seg"
        = some (cropWithIndex (sampleBoxAt 5 0 c2Req c2ArrA.shape) 0 c2ArrB)) := by
  refine ⟨by decide, by decide, rfl, rfl, rfl, by decide, ?_⟩
  have h := multi_sample_group_consistency ["img", "seg"] c2Req 2 5 c2Centers c2Data
    "img" "seg" (by decide) (by decide) c2ArrA c2ArrB rfl rfl rfl 0 (by decide)
  exact ⟨h.1, h.2.1, h.2.2.1⟩

/-- C3: two independently constructed transform instances, each seeded
with the same seed via set_random_state (which overwrites the wrapper
state and propagates the seed to the wrapped cropper), produce
bit-identical crop boxes across any identical sequence of randomize
calls, both for RandCropd-style transforms and for the sub-seeded
per-call box sequences of RandSpatialCropSamplesd across all
`num_samples` draws. -/
theorem seeded_replay_deterministic {r : Nat} (reqSize : Fin r → Int)
    (numSamples seed : Nat) (inst1 inst2 : RandCropdState)
    (calls : List (Coord r)) :
    randCropdReplay reqSize (setRandomState seed inst1) calls =
      randCropdReplay reqSize (setRandomState seed inst2) calls ∧
    rscsReplay reqSize numSamples (setRandomState seed inst1).rState calls =
      rscsReplay reqSize numSamples (setRandomState seed inst2).rState calls :=
  ⟨rfl, rfl⟩

/-- C6: every multi-sample transform call returns a list of exactly
`num_samples` output dictionaries, and each output sample's transformed
entries carry that sample's integer patch index. -/
theorem multi_sample_count_and_patch_index {r : Nat} (keys : List String)
    (reqSize : Fin r → Int) (numSamples subSeed : Nat) (centers : Nat → Coord r)
    (data : Dict (MArr r)) (k : String) (a : MArr r)
    (hk : keys.contains k = true) (ha : dictLookup data k = some a) :
    (randSpatialCropSamplesdCall keys reqSize numSamples subSeed data).length
      = numSamples ∧
    (randWeightedCropdCall keys reqSize centers numSamples data).length = numSamples ∧
    (randCropByPosNegLabeldCall keys none none reqSize centers numSamples data).length
      = numSamples ∧
    (randCropByLabelClassesdCall keys none reqSize centers numSamples data).length
      = numSamples ∧
    ∀ i, i < numSamples →
      Option.map MArr.patchIndex
        (dictLookup ((randSpatialCropSamplesdCall keys reqSize numSamples subSeed data).getD i []) k)
        = some (some i) ∧
      Option.map MArr.patchIndex
        (dictLookup ((randWeightedCropdCall keys reqSize centers numSamples data).getD i []) k)
        = some (some i) := by
  refine ⟨?_, ?_, ?_, ?_, ?_⟩
  · simp [randSpatialCropSamplesdCall]
  · simp [randWeightedCropdCall]
  · simp [randCropByPosNegLabeldCall]
  · simp [randCropByLabelClassesdCall]
  · intro i hi
    have hrscs : (randSpatialCropSamplesdCall keys reqSize numSamples subSeed data).getD i []
        = randSpatialCropSamplesdSampleAt keys reqSize subSeed data i :=
      getD_range_map _ numSamples i hi []
    have hwc : (randWeightedCropdCall keys reqSize centers numSamples data).getD i []
        = randomizeOnceSampleAt keys reqSize centers data i :=
      getD_range_map _ numSamples i hi []
    constructor
    · rw [hrscs]
      unfold randSpatialCropSamplesdSampleAt
      rw [dictLookup_mapValuesWithKey, ha]
      show Option.map MArr.patchIndex (some (if keys.contains k = true
        then cropWithIndex (sampleBoxAt subSeed i reqSize a.shape) i a else a)) = some (some i)
      rw [if_pos hk]
      rfl
    · rw [hwc]
      unfold randomizeOnceSampleAt
      rw [dictLookup_mapValuesWithKey, ha]
      show Option.map MArr.patchIndex (some (if keys.contains k = true
        then cropWithIndex (centerBox (centers i) reqSize a.shape) i a else a)) = some (some i)
      rw [if_pos hk]
      rfl

/-- Witness for C6 at a concrete dictionary: two samples, patch indices 0
and 1 on the configured key. -/
theorem multi_sample_count_and_patch_index_witness :
    (["img", "seg"].contains "img" = true) ∧
    dictLookup c2Data "img" = some c2ArrA ∧
    ((randSpatialCropSamplesdCall ["img", "seg"] c2Req 2 5 c2Data).length = 2 ∧
      (randWeightedCropdCall ["img", "seg"] c2Req c2Centers 2 c2Data).length = 2 ∧
      (randCropByPosNegLabeldCall ["img", "seg"] none none c2Req c2Centers 2 c2Data).length = 2 ∧
      (randCropByLabelClassesdCall ["img", "seg"] none c2Req c2Centers 2 c2Data).length = 2 ∧
      ∀ i, i < 2 →
        Option.map MArr.patchIndex
          (dictLookup ((randSpatialCropSamplesdCall ["img", "seg"] c2Req 2 5 c2Data).getD i []) "img")
          = some (some i) ∧
        Option.map MArr.patchIndex
          (dictLookup ((randWeightedCropdCall ["img", "seg"] c2Req c2Centers 2 c2Data).getD i []) "img")
          = some (some i)) :=
  ⟨by decide, rfl,
    multi_sample_count_and_patch_index ["img", "seg"] c2Req 2 5 c2Centers c2Data
      "img" c2ArrA (by decide) rfl⟩

/-- C4: constructing a foreground/background ratio sampler raises
ValueError exactly when pos < 0, or neg < 0, or pos + neg = 0, and
succeeds in every other case. -/
theorem posneg_construction_valueerror (pos neg : Rat) :
    isError (randCropByPosNegLabelInit pos neg) = true ↔
      (pos < 0 ∨ neg < 0 ∨ pos + neg = 0) := by
  unfold randCropByPosNegLabelInit
  by_cases h1 : pos < 0 ∨ neg < 0
  · rw [if_pos h1]
    simp only [isError]
    constructor
    · intro _
      rcases h1 with h | h
      · exact Or.inl h
      · exact Or.inr (Or.inl h)
    · intro _; trivial
  · rw [if_neg h1]
    by_cases h2 : pos + neg = 0
    · rw [if_pos h2]
      simp only [isError]
      constructor
      · intro _; exact Or.inr (Or.inr h2)
      · intro _; trivial
    · rw [if_neg h2]
      simp only [isError]
      constructor
      · intro h; cases h
      · intro h
        rcases h with h | h | h
        · exact absurd (Or.inl h) h1
        · exact absurd (Or.inr h) h1
        · exact absurd h h2

/-- C5 counterexample: RandCropByLabelClassesd configured with
indices_key "idx" pops the precomputed-indices entry from the copied
data, so the entry under "idx" - a key not among the configured keys -
is present in the input but absent from output sample 0, not
propagated unchanged. -/
theorem unrelated_key_dropped_counterexample :
    dictLookup c5Data "idx" = some c5ArrIdx ∧
    (["img"].contains "idx" = false) ∧
    dictLookup
      ((randCropByLabelClassesdCall ["img"] (some "idx") c2Req c2Centers 1 c5Data).getD 0 [])
      "idx" = none :=
  ⟨rfl, by decide, rfl⟩

/-- C5 (amended): in every output sample of a multi-sample dictionary
crop transform call, every entry whose key is neither among the
configured keys nor a configured precomputed-indices key (indices_key,
fg_indices_key, bg_indices_key - those entries are popped) appears
unchanged (equal in value); configured keys and popped indices entries
are the only entries whose values can differ from the input. -/
theorem unrelated_keys_propagated {r : Nat} (keys : List String)
    (indicesKey fgKey bgKey : Option String) (reqSize : Fin r → Int)
    (centers : Nat → Coord r) (numSamples subSeed : Nat)
    (data : Dict (MArr r)) (k : String)
    (hk : keys.contains k = false)
    (hidx : indicesKey ≠ some k) (hfg : fgKey ≠ some k) (hbg : bgKey ≠ some k)
    (i : Nat) (hi : i < numSamples) :
    dictLookup ((randSpatialCropSamplesdCall keys reqSize numSamples subSeed data).getD i []) k
      = dictLookup data k ∧
    dictLookup ((randWeightedCropdCall keys reqSize centers numSamples data).getD i []) k
      = dictLookup data k ∧
    dictLookup ((randCropByLabelClassesdCall keys indicesKey reqSize centers numSamples data).getD i []) k
      = dictLookup data k ∧
    dictLookup ((randCropByPosNegLabeldCall keys fgKey bgKey reqSize centers numSamples data).getD i []) k
      = dictLookup data k := by
  have hnotin : ¬ (keys.contains k = true) := by
    rw [hk]
    exact Bool.false_ne_true
  have honce : ∀ d : Dict (MArr r),
      dictLookup (randomizeOnceSampleAt keys reqSize centers d i) k = dictLookup d k := by
    intro d
    unfold randomizeOnceSampleAt
    rw [dictLookup_mapValuesWithKey]
    cases hd : dictLookup d k with
    | none => rfl
    | some a =>
        show some (if keys.contains k = true
          then cropWithIndex (centerBox (centers i) reqSize a.shape) i a else a) = some a
        rw [if_neg hnotin]
  refine ⟨?_, ?_, ?_, ?_⟩
  · have hg : (randSpatialCropSamplesdCall keys reqSize numSamples subSeed data).getD i []
        = randSpatialCropSamplesdSampleAt keys reqSize subSeed data i :=
      getD_range_map _ numSamples i hi []
    rw [hg]
    unfold randSpatialCropSamplesdSampleAt
    rw [dictLookup_mapValuesWithKey]
    cases hd : dictLookup data k with
    | none => rfl
    | some a =>
        show some (if keys.contains k = true
          then cropWithIndex (sampleBoxAt subSeed i reqSize a.shape) i a else a) = some a
        rw [if_neg hnotin]
  · have hg : (randWeightedCropdCall keys reqSize centers numSamples data).getD i []
        = randomizeOnceSampleAt keys reqSize centers data i :=
      getD_range_map _ numSamples i hi []
    rw [hg]
    exact honce data
  · cases indicesKey with
    | none =>
        have hg : (randCropByLabelClassesdCall keys none reqSize centers numSamples data).getD i []
            = randomizeOnceSampleAt keys reqSize centers data i :=
          getD_range_map _ numSamples i hi []
        rw [hg, honce]
    | some kp =>
        have hkp : ¬ k = kp := fun he => hidx (by rw [he])
        have hg : (randCropByLabelClassesdCall keys (some kp) reqSize centers numSamples data).getD i []
            = randomizeOnceSampleAt keys reqSize centers (dictPop data kp) i :=
          getD_range_map _ numSamples i hi []
        rw [hg, honce, dictLookup_dictPop, if_neg hkp]
  · cases fgKey with
    | none =>
        cases bgKey with
        | none =>
            have hg : (randCropByPosNegLabeldCall keys none none reqSize centers numSamples data).getD i []
                = randomizeOnceSampleAt keys reqSize centers data i :=
              getD_range_map _ numSamples i hi []
            rw [hg, honce]
        | some kb2 =>
            have hkb : ¬ k = kb2 := fun he => hbg (by rw [he])
            have hg : (randCropByPosNegLabeldCall keys none (some kb2) reqSize centers numSamples data).getD i []
                = randomizeOnceSampleAt keys reqSize centers (dictPop data kb2) i :=
              getD_range_map _ numSamples i hi []
            rw [hg, honce, dictLookup_dictPop, if_neg hkb]
    | some kf2 =>
        have hkf : ¬ k = kf2 := fun he => hfg (by rw [he])
        cases bgKey with
        | none =>
            have hg : (randCropByPosNegLabeldCall keys (some kf2) none reqSize centers numSamples data).getD i []
                = randomizeOnceSampleAt keys reqSize centers (dictPop data kf2) i :=
              getD_range_map _ numSamples i hi []
            rw [hg, honce, dictLookup_dictPop, if_neg hkf]
        | some kb2 =>
            have hkb : ¬ k = kb2 := fun he => hbg (by rw [he])
            have hg : (randCropByPosNegLabeldCall keys (some kf2) (some kb2) reqSize centers numSamples data).getD i []
                = randomizeOnceSampleAt keys reqSize centers (dictPop (dictPop data kf2) kb2) i :=
              getD_range_map _ numSamples i hi []
            rw [hg, honce, dictLookup_dictPop, if_neg hkb, dictLookup_dictPop, if_neg hkf]

/-- Witness for C5 (amended) at a concrete dictionary: the entry under
"extra" survives unchanged in sample 0 of all four transforms. -/
theorem unrelated_keys_propagated_witness :
    (["img"].contains "extra" = false) ∧
    (some "idx" ≠ some "extra") ∧ (some "fg" ≠ some "extra") ∧
    (some "bg" ≠ some "extra") ∧ 0 < 1 ∧
    (dictLookup ((randSpatialCropSamplesdCall ["img"] c2Req 1 5 c5DataW).getD 0 []) "extra"
        = dictLookup c5DataW "extra" ∧
      dictLookup ((randWeightedCropdCall ["img"] c2Req c2Centers 1 c5DataW).getD 0 []) "extra"
        = dictLookup c5DataW "extra" ∧
      dictLookup ((randCropByLabelClassesdCall ["img"] (some "idx") c2Req c2Centers 1 c5DataW).getD 0 []) "extra"
        = dictLookup c5DataW "extra" ∧
      dictLookup ((randCropByPosNegLabeldCall ["img"] (some "fg") (some "bg") c2Req c2Centers 1 c5DataW).getD 0 []) "extra"
        = dictLookup c5DataW "extra") :=
  ⟨by decide, by decide, by decide, by decide, by decide,
    unrelated_keys_propagated ["img"] (some "idx") (some "fg") (some "bg") c2Req
      c2Centers 1 5 c5DataW "extra" (by decide) (by decide) (by decide) (by decide)
      0 (by decide)⟩

/-- C9: the precomputed-indices entries configured via fg_indices_key and
bg_indices_key (RandCropByPosNegLabeld) and via indices_key
(RandCropByLabelClassesd) are popped from the copied data before the
output samples are built, so they appear in none of the returned sample
dictionaries. -/
theorem precomputed_indices_popped {r : Nat} (keys : List String)
    (reqSize : Fin r → Int) (centers : Nat → Coord r) (numSamples : Nat)
    (data : Dict (MArr r)) (kf kb ki : String) (i : Nat) :
    dictLookup ((randCropByPosNegLabeldCall keys (some kf) (some kb) reqSize centers numSamples data).getD i []) kf
      = none ∧
    dictLookup ((randCropByPosNegLabeldCall keys (some kf) (some kb) reqSize centers numSamples data).getD i []) kb
      = none ∧
    dictLookup ((randCropByLabelClassesdCall keys (some ki) reqSize centers numSamples data).getD i []) ki
      = none := by
  have hout : ∀ (d : Dict (MArr r)) (k : String), dictLookup d k = none →
      dictLookup (((List.range numSamples).map
        (randomizeOnceSampleAt keys reqSize centers d)).getD i []) k = none := by
    intro d k hd
    by_cases hi : i < numSamples
    · rw [getD_range_map _ numSamples i hi []]
      unfold randomizeOnceSampleAt
      rw [dictLookup_mapValuesWithKey, hd]
      rfl
    · rw [List.getD_eq_getElem?_getD, List.getElem?_map]
      have hnone : (List.range numSamples)[i]? = none := by
        apply List.getElem?_eq_none
        simpa using Nat.le_of_not_lt hi
      rw [hnone]
      rfl
  have h1 : dictLookup (dictPop data kf) kf = none := by
    rw [dictLookup_dictPop]
    simp
  have h2 : dictLookup (dictPop (dictPop data kf) kb) kf = none := by
    rw [dictLookup_dictPop]
    by_cases h : kf = kb
    · rw [if_pos h]
    · rw [if_neg h]
      exact h1
  have h3 : dictLookup (dictPop (dictPop data kf) kb) kb = none := by
    rw [dictLookup_dictPop]
    simp
  have h4 : dictLookup (dictPop data ki) ki = none := by
    rw [dictLookup_dictPop]
    simp
  exact ⟨hout (dictPop (dictPop data kf) kb) kf h2,
    hout (dictPop (dictPop data kf) kb) kb h3,
    hout (dictPop data ki) ki h4⟩

theorem storeGet_storeAlloc {V : Type} (s : Store V) (d : Dict V) (ref : Nat)
    (h : ref < s.refs.length) : storeGet (storeAlloc s d).1 ref = storeGet s ref := by
  unfold storeGet storeAlloc
  simp only [List.getD_eq_getElem?_getD, List.getElem?_append_left h]

theorem storeGet_storeSet_ne {V : Type} (s : Store V) (r1 r2 : Nat) (d : Dict V)
    (h : r1 ≠ r2) : storeGet (storeSet s r1 d) r2 = storeGet s r2 := by
  unfold storeGet storeSet
  simp only [List.getD_eq_getElem?_getD, List.getElem?_set_ne h]

theorem storeGet_updateKeyAt_ne {V : Type} (f : V → V) (s : Store V)
    (r1 r2 : Nat) (k : String) (h : r1 ≠ r2) :
    storeGet (updateKeyAt f s r1 k) r2 = storeGet s r2 := by
  unfold updateKeyAt
  split
  · rfl
  · exact storeGet_storeSet_ne s r1 r2 _ h

theorem storeGet_updateKeysAt_ne {V : Type} (f : V → V) (ks : List String) :
    ∀ (s : Store V) (r1 r2 : Nat), r1 ≠ r2 →
      storeGet (updateKeysAt f ks s r1) r2 = storeGet s r2 := by
  induction ks with
  | nil => intro s r1 r2 _; rfl
  | cons k rest ih =>
      intro s r1 r2 h
      show storeGet (updateKeysAt f rest (updateKeyAt f s r1 k) r1) r2 = _
      rw [ih _ r1 r2 h, storeGet_updateKeyAt_ne f s r1 r2 k h]

theorem allocSamples_spec {V : Type} (ds : List (Dict V)) :
    ∀ (s : Store V) (ref : Nat), ref < s.refs.length →
      storeGet (allocSamples ds s).1 ref = storeGet s ref ∧
      ∀ r2, r2 ∈ (allocSamples ds s).2 → s.refs.length ≤ r2 := by
  induction ds with
  | nil =>
      intro s ref _
      exact ⟨rfl, fun r2 hr => absurd hr (List.not_mem_nil r2)⟩
  | cons d rest ih =>
      intro s ref h
      have hlen : (storeAlloc s d).1.refs.length = s.refs.length + 1 := by
        unfold storeAlloc
        simp
      have h1 : ref < (storeAlloc s d).1.refs.length := by omega
      obtain ⟨ihG, ihM⟩ := ih (storeAlloc s d).1 ref h1
      constructor
      · show storeGet (allocSamples rest (storeAlloc s d).1).1 ref = storeGet s ref
        rw [ihG, storeGet_storeAlloc s d ref h]
      · intro r2 hr
        cases hr with
        | head => exact Nat.le_refl _
        | tail _ htail =>
            have hge := ihM r2 htail
            omega

/-- C10: every dictionary crop/pad transform call and inverse call builds
a new dictionary from the input mapping and mutates only that copy: the
caller's input dictionary object is left unmodified (no key added,
removed or rebound in it) and every returned dictionary reference is a
fresh object distinct from the input. -/
theorem input_mapping_unmodified {V : Type} (keys popKeys : List String)
    (f : V → V) (cropAt : Nat → String → V → V) (numSamples : Nat)
    (s : Store V) (ref : Nat) (h : ref < s.refs.length) :
    storeGet (dictTransformCall keys f s ref).1 ref = storeGet s ref ∧
    (dictTransformCall keys f s ref).2 ≠ ref ∧
    storeGet (multiSampleCallStore keys popKeys cropAt numSamples s ref).1 ref
      = storeGet s ref ∧
    ∀ r2, r2 ∈ (multiSampleCallStore keys popKeys cropAt numSamples s ref).2 →
      r2 ≠ ref := by
  have hne : s.refs.length ≠ ref := by omega
  refine ⟨?_, ?_, ?_, ?_⟩
  · show storeGet (updateKeysAt f keys (storeAlloc s (storeGet s ref)).1
      (storeAlloc s (storeGet s ref)).2) ref = _
    have hne2 : (storeAlloc s (storeGet s ref)).2 ≠ ref := hne
    rw [storeGet_updateKeysAt_ne f keys _ _ ref hne2]
    exact storeGet_storeAlloc s _ ref h
  · exact hne
  · exact (allocSamples_spec _ s ref h).1
  · intro r2 hr
    have hge := (allocSamples_spec _ s ref h).2 r2 hr
    omega

/-- Witness for C10 at a concrete one-object store. -/
theorem input_mapping_unmodified_witness :
    0 < c10Store.refs.length ∧
    (storeGet (dictTransformCall ["img"] (fun v => v + 1) c10Store 0).1 0
        = storeGet c10Store 0 ∧
      (dictTransformCall ["img"] (fun v => v + 1) c10Store 0).2 ≠ 0 ∧
      storeGet (multiSampleCallStore ["img"] ["idx"] (fun _ _ v => v) 2 c10Store 0).1 0
        = storeGet c10Store 0 ∧
      ∀ r2, r2 ∈ (multiSampleCallStore ["img"] ["idx"] (fun _ _ v => v) 2 c10Store 0).2 →
        r2 ≠ 0) :=
  ⟨by decide,
    input_mapping_unmodified ["img"] ["idx"] (fun v => v + 1) (fun _ _ v => v) 2
      c10Store 0 (by decide)⟩

theorem dictLookup_append_of_isSome {V : Type} (d e : Dict V) (k : String)
    (h : (dictLookup d k).isSome = true) : dictLookup (d ++ e) k = dictLookup d k := by
  induction d with
  | nil => simp [dictLookup] at h
  | cons kv rest ih =>
      show (if kv.1 = k then some kv.2 else dictLookup (rest ++ e) k)
        = (if kv.1 = k then some kv.2 else dictLookup rest k)
      by_cases hk : kv.1 = k
      · rw [if_pos hk, if_pos hk]
      · rw [if_neg hk, if_neg hk]
        apply ih
        have h2 : (if kv.1 = k then some kv.2 else dictLookup rest k).isSome = true := h
        rwa [if_neg hk] at h2

theorem dictLookup_append_single_of_none {V : Type} (d : Dict V) (ka k : String)
    (va : V) (h : dictLookup d k = none) :
    dictLookup (d ++ [(ka, va)]) k = if ka = k then some va else none := by
  induction d with
  | nil => rfl
  | cons kv rest ih =>
      have h0 : (if kv.1 = k then some kv.2 else dictLookup rest k) = none := h
      have hk : ¬ kv.1 = k := by
        intro he
        rw [if_pos he] at h0
        exact Option.noConfusion h0
      have hr : dictLookup rest k = none := by rwa [if_neg hk] at h0
      show (if kv.1 = k then some kv.2 else dictLookup (rest ++ [(ka, va)]) k) = _
      rw [if_neg hk]
      exact ih hr

theorem derivedKey_inj (sfx k1 k2 : String)
    (h : derivedKey k1 sfx = derivedKey k2 sfx) : k1 = k2 := by
  unfold derivedKey at h
  have hd := congrArg String.data h
  rw [String.data_append, String.data_append, String.data_append,
    String.data_append] at hd
  have h2 := List.append_cancel_right hd
  exact String.ext (List.append_cancel_right h2)

/-- Characterization of the BoundingRectd key loop over any starting
dictionary: it errors exactly when some configured key's derived key is
already bound, and otherwise appends one bounding-box entry per
configured key. -/
theorem boundingRectdGo_spec {V : Type} (sfx : String) (bb : V → V)
    (keys : List String) :
    ∀ data : Dict V, keys.Nodup →
      (∀ k ∈ keys, (dictLookup data k).isSome = true) →
      ((isError (boundingRectdGo sfx bb keys data) = true ↔
        ∃ k ∈ keys, (dictLookup data (derivedKey k sfx)).isSome = true) ∧
      ((∀ k ∈ keys, dictLookup data (derivedKey k sfx) = none) →
        boundingRectdGo sfx bb keys data =
          Except.ok (data ++ keys.filterMap fun k2 =>
            (dictLookup data k2).map fun v => (derivedKey k2 sfx, bb v)))) := by
  induction keys with
  | nil =>
      intro data _ _
      constructor
      · constructor
        · intro hfalse
          exact absurd hfalse (by simp [boundingRectdGo, isError])
        · rintro ⟨k, hk, _⟩
          exact absurd hk (List.not_mem_nil k)
      · intro _
        simp [boundingRectdGo]
  | cons k ks ih =>
      intro data hnd hpres
      obtain ⟨hknotin, hnd2⟩ := List.nodup_cons.mp hnd
      have hkpres := hpres k (List.mem_cons_self k ks)
      obtain ⟨v, hv⟩ := Option.isSome_iff_exists.mp hkpres
      have hgo : boundingRectdGo sfx bb (k :: ks) data =
          if (dictLookup data (derivedKey k sfx)).isSome = true then
            Except.error "KeyError: bounding box data already exists"
          else boundingRectdGo sfx bb ks (data ++ [(derivedKey k sfx, bb v)]) := by
        show (match dictLookup data k with
          | none => boundingRectdGo sfx bb ks data
          | some v2 =>
              if (dictLookup data (derivedKey k sfx)).isSome = true then
                Except.error "KeyError: bounding box data already exists"
              else boundingRectdGo sfx bb ks (data ++ [(derivedKey k sfx, bb v2)]))
          = _
        rw [hv]
      by_cases hcol : (dictLookup data (derivedKey k sfx)).isSome = true
      · constructor
        · rw [hgo, if_pos hcol]
          constructor
          · intro _
            exact ⟨k, List.mem_cons_self k ks, hcol⟩
          · intro _
            rfl
        · intro hnone
          have hn := hnone k (List.mem_cons_self k ks)
          rw [hn] at hcol
          exact absurd hcol (by simp)
      · have hpres2 : ∀ k2 ∈ ks,
            (dictLookup (data ++ [(derivedKey k sfx, bb v)]) k2).isSome = true := by
          intro k2 hk2
          rw [dictLookup_append_of_isSome data _ k2
            (hpres k2 (List.mem_cons_of_mem k hk2))]
          exact hpres k2 (List.mem_cons_of_mem k hk2)
        have hderEq : ∀ k2 ∈ ks,
            dictLookup (data ++ [(derivedKey k sfx, bb v)]) (derivedKey k2 sfx)
              = dictLookup data (derivedKey k2 sfx) := by
          intro k2 hk2
          cases hcase : dictLookup data (derivedKey k2 sfx) with
          | some w =>
              rw [dictLookup_append_of_isSome data _ _ (by rw [hcase]; rfl), hcase]
          | none =>
              rw [dictLookup_append_single_of_none data _ _ _ hcase]
              have hne : ¬ derivedKey k sfx = derivedKey k2 sfx := by
                intro he
                have hk12 := derivedKey_inj sfx k k2 he
                rw [hk12] at hknotin
                exact hknotin hk2
              rw [if_neg hne]
        obtain ⟨ihErr, ihOk⟩ := ih (data ++ [(derivedKey k sfx, bb v)]) hnd2 hpres2
        constructor
        · rw [hgo, if_neg hcol, ihErr]
          constructor
          · rintro ⟨k2, hk2, hs⟩
            refine ⟨k2, List.mem_cons_of_mem k hk2, ?_⟩
            rw [← hderEq k2 hk2]
            exact hs
          · rintro ⟨k2, hk2, hs⟩
            rcases List.mem_cons.mp hk2 with he | hm
            · rw [he] at hs
              exact absurd hs hcol
            · refine ⟨k2, hm, ?_⟩
              rw [hderEq k2 hm]
              exact hs
        · intro hnone
          have hnone2 : ∀ k2 ∈ ks,
              dictLookup (data ++ [(derivedKey k sfx, bb v)]) (derivedKey k2 sfx)
                = none := by
            intro k2 hk2
            rw [hderEq k2 hk2]
            exact hnone k2 (List.mem_cons_of_mem k hk2)
          rw [hgo, if_neg hcol, ihOk hnone2]
          have hkeysEq : ∀ k2 ∈ ks,
              dictLookup (data ++ [(derivedKey k sfx, bb v)]) k2
                = dictLookup data k2 := by
            intro k2 hk2
            exact dictLookup_append_of_isSome data _ k2
              (hpres k2 (List.mem_cons_of_mem k hk2))
          have hfm : (ks.filterMap fun k2 =>
              (dictLookup (data ++ [(derivedKey k sfx, bb v)]) k2).map
                fun w => (derivedKey k2 sfx, bb w))
              = ks.filterMap fun k2 =>
                (dictLookup data k2).map fun w => (derivedKey k2 sfx, bb w) :=
            List.filterMap_congr (fun k2 hk2 => by rw [hkeysEq k2 hk2])
          rw [hfm]
          have hcons : ((k :: ks).filterMap fun k2 =>
              (dictLookup data k2).map fun w => (derivedKey k2 sfx, bb w))
              = (derivedKey k sfx, bb v) ::
                (ks.filterMap fun k2 =>
                  (dictLookup data k2).map fun w => (derivedKey k2 sfx, bb w)) := by
            apply List.filterMap_cons_some
            rw [hv]
            rfl
          rw [hcons, List.append_assoc]
          rfl

/-- C8: a BoundingRectd call on a data dictionary that already contains an
entry under the derived bounding-box key of some configured key raises
KeyError, and only then; otherwise it returns the data extended with
exactly one bounding-box entry per configured key, appended in key
order. -/
theorem boundingrectd_collision_keyerror {V : Type} (keys : List String)
    (sfx : String) (bb : V → V) (data : Dict V) (hnd : keys.Nodup)
    (hpres : ∀ k ∈ keys, (dictLookup data k).isSome = true) :
    (isError (boundingRectdCall keys sfx bb data) = true ↔
      ∃ k ∈ keys, (dictLookup data (derivedKey k sfx)).isSome = true) ∧
    ((∀ k ∈ keys, dictLookup data (derivedKey k sfx) = none) →
      boundingRectdCall keys sfx bb data =
        Except.ok (data ++ keys.filterMap fun k2 =>
          (dictLookup data k2).map fun v => (derivedKey k2 sfx, bb v))) :=
  boundingRectdGo_spec sfx bb keys data hnd hpres

/-- Witness for C8 at a concrete dictionary with no pre-existing derived
keys. -/
theorem boundingrectd_collision_keyerror_witness :
    (["img", "seg"] : List String).Nodup ∧
    (∀ k ∈ (["img", "seg"] : List String), (dictLookup c8Data k).isSome = true) ∧
    ((isError (boundingRectdCall ["img", "seg"] "bbox" (fun v => v + 10) c8Data) = true ↔
        ∃ k ∈ (["img", "seg"] : List String),
          (dictLookup c8Data (derivedKey k "bbox")).isSome = true) ∧
      ((∀ k ∈ (["img", "seg"] : List String),
          dictLookup c8Data (derivedKey k "bbox") = none) →
        boundingRectdCall ["img", "seg"] "bbox" (fun v => v + 10) c8Data =
          Except.ok (c8Data ++ (["img", "seg"] : List String).filterMap fun k2 =>
            (dictLookup c8Data k2).map fun v => (derivedKey k2 "bbox", v + 10)))) :=
  ⟨by decide, by decide,
    boundingrectd_collision_keyerror ["img", "seg"] "bbox" (fun v => v + 10) c8Data
      (by decide) (by decide)⟩

end MonaiCropPad
